import Mathlib

/-!
Verification development for the Grafana Backstage plugin's dashboard
selector core: the query lexer/parser/evaluator and the selector-dispatch
policy of `Client.listDashboards` in `src/api.ts`.

The dispatcher (`isSingleWord`, `Client.listDashboards`,
`Client.dashboardsForQuery`, `Client.dashboardsByTag`,
`Client.fullyQualifiedDashboardURLs`) is embedded from `src/api.ts`.
The query module (`QueryEvaluator` from `./query`) is not part of the
available sources; its lexer, parser and evaluator are modelled from the
specification (sections 4.1 to 4.3 and the EBNF of section 6).
-/

/-- Dashboard record, from `src/types.ts` (interface `Dashboard`). -/
structure Dashboard where
  title : String
  url : String
  folderTitle : String
  folderUrl : String
  tags : List String
deriving Repr, DecidableEq

/-- Modelled from the spec: error taxonomy of section 7 for the missing
`src/query.ts`. `lexError` is an invalid character sequence or an
unterminated string literal; `parseError` is an unexpected token, an
unknown field name, an operator/field mismatch, or trailing input.
Positions are not tracked; the message strings carry the diagnostics. -/
inductive QueryError where
  | lexError (msg : String)
  | parseError (msg : String)
deriving Repr, DecidableEq

/-- Modelled from the spec: token classes of section 4.1 (identifiers,
single-quoted string literals, the operators `==` `!=` `@>`, the
combinators `&&` `||`, and parentheses). -/
inductive Token where
  | ident (s : String)
  | str (s : String)
  | eqOp
  | neqOp
  | containsOp
  | andOp
  | orOp
  | lparen
  | rparen
deriving Repr, DecidableEq

/-- Modelled from the spec: the three recognized field names of the
comparison grammar (section 3). -/
inductive FieldName where
  | title
  | folderTitle
  | tags
deriving Repr, DecidableEq

/-- Modelled from the spec: the comparison operators (section 3). -/
inductive CompOp where
  | equals
  | notEquals
  | contains
deriving Repr, DecidableEq

/-- Modelled from the spec: the expression tree (section 3), a
discriminated union of comparison leaves and And/Or combinator nodes. -/
inductive Expr where
  | comparison (field : FieldName) (op : CompOp) (value : String)
  | and (left right : Expr)
  | or (left right : Expr)
deriving Repr, DecidableEq

/-- A character matched by the character class `[\w-]` of the JavaScript
regular expression in `isSingleWord` (`src/api.ts` line 77): ASCII
letters, digits, underscore, or hyphen. -/
def isWordOrHyphenChar (c : Char) : Bool :=
  c.isAlphanum || c = '_' || c = '-'

/-- From `src/api.ts` lines 76-78: `input.match(/^[\w-]+$/g) !== null`,
i.e. the input is nonempty and every character is a word character or a
hyphen. -/
def isSingleWord (input : String) : Bool :=
  !input.data.isEmpty && input.data.all isWordOrHyphenChar

/-- Dropping a prefix never lengthens a list (termination helper for the
lexer). -/
theorem dropWhile_length_le (p : Char → Bool) :
    ∀ l : List Char, (l.dropWhile p).length ≤ l.length := by
  intro l
  induction l with
  | nil => simp [List.dropWhile]
  | cons c cs ih =>
    simp only [List.dropWhile]
    cases p c
    · simp
    · simp only [List.length_cons]
      omega

/-- The scan predicate for string literals: every character other than
the closing single quote. -/
def notQuote (c : Char) : Bool :=
  c ≠ '\''

/-- Prepends a token to the result of lexing the rest of the input,
keeping an error unchanged. -/
def consToken (t : Token) : Except QueryError (List Token) → Except QueryError (List Token)
  | .ok ts => .ok (t :: ts)
  | .error e => .error e

/-- Modelled from the spec: the lexer of section 4.1 for the missing
`src/query.ts`. Word characters form identifiers, whitespace is skipped,
single quotes delimit string literals (an unterminated literal is a
`LexError`), and the two-character operators `==` `!=` `@>` `&&` `||`
plus parentheses are the only other token classes; any other character
is a `LexError`. -/
def lexChars : List Char → Except QueryError (List Token)
  | [] => .ok []
  | c :: cs =>
    if isWordOrHyphenChar c then
      consToken (Token.ident (String.mk (c :: cs.takeWhile isWordOrHyphenChar)))
        (lexChars (cs.dropWhile isWordOrHyphenChar))
    else if c.isWhitespace then
      lexChars cs
    else if c = '(' then
      consToken Token.lparen (lexChars cs)
    else if c = ')' then
      consToken Token.rparen (lexChars cs)
    else if c = '\'' then
      if (cs.dropWhile notQuote).isEmpty then
        .error (.lexError "unterminated string literal")
      else
        consToken (Token.str (String.mk (cs.takeWhile notQuote)))
          (lexChars (cs.dropWhile notQuote).tail)
    else if c = '=' then
      if cs.head? = some '=' then consToken Token.eqOp (lexChars cs.tail)
      else .error (.lexError "unexpected character =")
    else if c = '!' then
      if cs.head? = some '=' then consToken Token.neqOp (lexChars cs.tail)
      else .error (.lexError "unexpected character !")
    else if c = '@' then
      if cs.head? = some '>' then consToken Token.containsOp (lexChars cs.tail)
      else .error (.lexError "unexpected character @")
    else if c = '&' then
      if cs.head? = some '&' then consToken Token.andOp (lexChars cs.tail)
      else .error (.lexError "unexpected character &")
    else if c = '|' then
      if cs.head? = some '|' then consToken Token.orOp (lexChars cs.tail)
      else .error (.lexError "unexpected character |")
    else .error (.lexError "unexpected character")
termination_by l => l.length
decreasing_by
  · have h := dropWhile_length_le isWordOrHyphenChar cs
    simp only [List.length_cons]
    omega
  · simp only [List.length_cons]; omega
  · simp only [List.length_cons]; omega
  · simp only [List.length_cons]; omega
  · have h := dropWhile_length_le notQuote cs
    have h2 := List.length_tail (cs.dropWhile notQuote)
    simp only [List.length_cons]
    omega
  · have h := List.length_tail cs
    simp only [List.length_cons]
    omega
  · have h := List.length_tail cs
    simp only [List.length_cons]
    omega
  · have h := List.length_tail cs
    simp only [List.length_cons]
    omega
  · have h := List.length_tail cs
    simp only [List.length_cons]
    omega
  · have h := List.length_tail cs
    simp only [List.length_cons]
    omega

/-- Modelled from the spec: maps a lexed identifier to one of the three
recognized field names (section 3); any other name is unknown. -/
def fieldOfName (s : String) : Option FieldName :=
  if s = "title" then some FieldName.title
  else if s = "folderTitle" then some FieldName.folderTitle
  else if s = "tags" then some FieldName.tags
  else none

/-- Modelled from the spec: maps an operator token to a comparison
operator. -/
def compOpOfToken : Token → Option CompOp
  | .eqOp => some CompOp.equals
  | .neqOp => some CompOp.notEquals
  | .containsOp => some CompOp.contains
  | _ => none

/-- Modelled from the spec: the `Comparison := Identifier Operator
StringLiteral` production of section 4.2, including the semantic checks:
an unrecognized field name is a `ParseError`, and the `@>` operator is
rejected on any field other than `tags`. -/
def parseComparison (name : String) (ts : List Token) :
    Except QueryError (Expr × List Token) :=
  match fieldOfName name with
  | none => .error (.parseError ("unknown field: " ++ name))
  | some f =>
    match ts with
    | opTok :: rest =>
      match compOpOfToken opTok with
      | none => .error (.parseError "expected comparison operator")
      | some op =>
        if op = CompOp.contains ∧ f ≠ FieldName.tags then
          .error (.parseError "operator @> is only valid on the tags field")
        else
          match rest with
          | .str v :: rest2 => .ok (.comparison f op v, rest2)
          | _ => .error (.parseError "expected string literal")
    | [] => .error (.parseError "expected comparison operator")

/-- The grammar production currently being parsed: `Or`, `And`, or
`Primary` from the EBNF of section 6. -/
inductive ParseMode where
  | orMode
  | andMode
  | primMode
deriving Repr, DecidableEq

/-- Modelled from the spec: the recursive-descent parser of section 4.2
over the EBNF of section 6, with `&&` binding tighter than `||` and
parentheses overriding. Repeated `||` (resp. `&&`) chains are associated
to the right; the spec fixes only precedence, and both combinators are
semantically associative. The first argument is recursion fuel (one unit
list element per step); `parseTokens` supplies more than enough of it,
so the fuel-exhaustion branch is unreachable from `parse`. -/
def parseExpr : List Unit → ParseMode → List Token → Except QueryError (Expr × List Token)
  | [], _, _ => .error (.parseError "query too deeply nested")
  | _ :: fuel, .orMode, ts =>
    match parseExpr fuel .andMode ts with
    | .error e => .error e
    | .ok (l, rest) =>
      match rest with
      | .orOp :: rest2 =>
        match parseExpr fuel .orMode rest2 with
        | .error e => .error e
        | .ok (r, rest3) => .ok (.or l r, rest3)
      | _ => .ok (l, rest)
  | _ :: fuel, .andMode, ts =>
    match parseExpr fuel .primMode ts with
    | .error e => .error e
    | .ok (l, rest) =>
      match rest with
      | .andOp :: rest2 =>
        match parseExpr fuel .andMode rest2 with
        | .error e => .error e
        | .ok (r, rest3) => .ok (.and l r, rest3)
      | _ => .ok (l, rest)
  | _ :: fuel, .primMode, ts =>
    match ts with
    | .lparen :: rest =>
      match parseExpr fuel .orMode rest with
      | .error e => .error e
      | .ok (e, .rparen :: rest2) => .ok (e, rest2)
      | .ok _ => .error (.parseError "expected closing parenthesis")
    | .ident name :: rest => parseComparison name rest
    | _ => .error (.parseError "expected a comparison or a parenthesized group")

/-- Fuel for `parseExpr`: three units per token plus a constant reserve,
strictly more than the parser can ever consume on the given input. -/
def fuelFor : List Token → List Unit
  | [] => [(), (), (), ()]
  | _ :: ts => () :: () :: () :: fuelFor ts

/-- Modelled from the spec: runs the parser on a token sequence and
enforces the all-or-nothing error policy of section 4.2 (leftover tokens
after a complete root expression are a `ParseError`). -/
def parseTokens (ts : List Token) : Except QueryError Expr :=
  match parseExpr (fuelFor ts) .orMode ts with
  | .error e => .error e
  | .ok (e, []) => .ok e
  | .ok (_, _ :: _) => .error (.parseError "trailing input")

/-- Modelled from the spec: `QueryEvaluator.parse` of the missing
`src/query.ts` — lex the selector string, then parse the token sequence
(sections 4.1 and 4.2). -/
def QueryEvaluator.parse (query : String) : Except QueryError Expr :=
  match lexChars query.data with
  | .error e => .error e
  | .ok ts => parseTokens ts

/-- Modelled from the spec: `QueryEvaluator.evaluate` of the missing
`src/query.ts`, section 4.3. Equality and inequality are exact,
case-sensitive string comparisons on `title`/`folderTitle`; `@>` tests
membership of the literal in the `tags` collection. The spec leaves the
remaining field/operator combinations undefined (the parser rejects `@>`
on non-`tags` fields); they evaluate to `false` here and are not relied
upon by any claim. -/
def QueryEvaluator.evaluate : Expr → Dashboard → Bool
  | .comparison f op v, d =>
    match f, op with
    | .title, .equals => d.title = v
    | .title, .notEquals => d.title ≠ v
    | .folderTitle, .equals => d.folderTitle = v
    | .folderTitle, .notEquals => d.folderTitle ≠ v
    | .tags, .contains => d.tags.contains v
    | _, _ => false
  | .and l r, d => QueryEvaluator.evaluate l d && QueryEvaluator.evaluate r d
  | .or l r, d => QueryEvaluator.evaluate l d || QueryEvaluator.evaluate r d

/-- The fetch layer seen by the dispatcher (spec section 6): the
unfiltered listing `/api/search?type=dash-db` and the server-side
tag-filtered listing, both external collaborators of the core. -/
structure FetchLayer where
  searchAll : List Dashboard
  searchByTag : String → List Dashboard

/-- A client computation: given the fetch layer it produces either a
result or a thrown error, together with the list of API paths fetched,
in order. This models the async methods of `Client` in `src/api.ts`,
where a thrown error aborts the method before any later `fetch`. -/
def ClientM (α : Type) : Type :=
  FetchLayer → Except QueryError α × List String

/-- Return without fetching, as a completed `async` body. -/
def ClientM.pure (a : α) : ClientM α := fun _ => (.ok a, [])

/-- Sequencing of client computations: a thrown error in the first part
skips the continuation, exactly as a JavaScript `throw` skips the rest
of an `async` method body. -/
def ClientM.bind (x : ClientM α) (f : α → ClientM β) : ClientM β := fun fl =>
  match x fl with
  | (.error e, tr) => (.error e, tr)
  | (.ok a, tr) =>
    match f a fl with
    | (r, tr2) => (r, tr ++ tr2)

/-- Lifts a pure `Except` value (such as a parse result) into a client
computation; a `throw` performs no fetch. -/
def ClientM.ofExcept (x : Except QueryError α) : ClientM α := fun _ => (x, [])

/-- The `this.fetch<Dashboard[]>('/api/search?type=dash-db')` call of
`src/api.ts` line 115, recorded in the trace. -/
def Client.fetchSearchAll : ClientM (List Dashboard) := fun fl =>
  (.ok fl.searchAll, ["/api/search?type=dash-db"])

/-- The `this.fetch<Dashboard[]>('/api/search?type=dash-db&tag=...')`
call of `src/api.ts` line 124, recorded in the trace. -/
def Client.fetchSearchByTag (tag : String) : ClientM (List Dashboard) := fun fl =>
  (.ok (fl.searchByTag tag), ["/api/search?type=dash-db&tag=" ++ tag])

/-- From `src/api.ts` lines 397-403: prefix the domain onto each
dashboard's `url` and `folderUrl`, leaving every other field unchanged. -/
def Client.fullyQualifiedDashboardURLs (domain : String) (dashboards : List Dashboard) :
    List Dashboard :=
  dashboards.map fun dashboard =>
    { dashboard with
      url := domain ++ dashboard.url
      folderUrl := domain ++ dashboard.folderUrl }

/-- From `src/api.ts` lines 113-121: parse the query, then fetch the
complete dashboard listing, qualify the URLs, and keep the dashboards on
which the parsed expression evaluates to `true`. The statement order of
the source is mirrored by the monadic sequencing: the parse happens
before the fetch. -/
def Client.dashboardsForQuery (domain query : String) : ClientM (List Dashboard) :=
  ClientM.bind (ClientM.ofExcept (QueryEvaluator.parse query)) fun parsedQuery =>
  ClientM.bind Client.fetchSearchAll fun response =>
  ClientM.pure ((Client.fullyQualifiedDashboardURLs domain response).filter fun dashboard =>
    QueryEvaluator.evaluate parsedQuery dashboard == true)

/-- From `src/api.ts` lines 123-127: fetch the server-side tag-filtered
listing and qualify the URLs. -/
def Client.dashboardsByTag (domain tag : String) : ClientM (List Dashboard) :=
  ClientM.bind (Client.fetchSearchByTag tag) fun response =>
  ClientM.pure (Client.fullyQualifiedDashboardURLs domain response)

/-- From `src/api.ts` lines 105-111: the selector dispatcher — a single
bare word is treated as a tag (server-side filtered path); anything else
goes through the parse-and-filter path. -/
def Client.listDashboards (domain query : String) : ClientM (List Dashboard) :=
  if isSingleWord query then Client.dashboardsByTag domain query
  else Client.dashboardsForQuery domain query

/-- Source text of a recognized field name, as written in a selector
string. -/
def FieldName.render : FieldName → String
  | .title => "title"
  | .folderTitle => "folderTitle"
  | .tags => "tags"

/-- Source text of a comparison operator, as written in a selector
string. -/
def CompOp.render : CompOp → String
  | .equals => "=="
  | .notEquals => "!="
  | .contains => "@>"

/-- The token the lexer produces for each comparison operator. -/
def opToken : CompOp → Token
  | .equals => Token.eqOp
  | .notEquals => Token.neqOp
  | .contains => Token.containsOp

/-- A comparison at the source level: a recognized field, an operator,
and a literal value, rendering to `field op 'value'`. -/
structure ComparisonSrc where
  field : FieldName
  op : CompOp
  value : String
deriving Repr, DecidableEq

/-- The selector text of a comparison. -/
def ComparisonSrc.render (c : ComparisonSrc) : String :=
  c.field.render ++ " " ++ c.op.render ++ " '" ++ c.value ++ "'"

/-- The expression-tree leaf a comparison parses to. -/
def ComparisonSrc.expr (c : ComparisonSrc) : Expr :=
  .comparison c.field c.op c.value

/-- Well-formedness of a comparison source: `@>` only on `tags`, and the
literal value contains no single quote (the grammar's string literals
cannot contain the delimiter). -/
def ComparisonSrc.wf (c : ComparisonSrc) : Prop :=
  (c.op = CompOp.contains → c.field = FieldName.tags) ∧
    ∀ ch ∈ c.value.data, notQuote ch = true

instance (c : ComparisonSrc) : Decidable c.wf := by
  unfold ComparisonSrc.wf
  infer_instance

/-- String concatenation concatenates the underlying character lists. -/
theorem data_append (s t : String) : (s ++ t).data = s.data ++ t.data := rfl

/-- Quote evaluation facts for the literal scan. -/
theorem notQuote_quote : notQuote '\'' = false := by decide

/-- Scanning for the closing quote keeps exactly the quote-free prefix. -/
theorem takeWhile_quote (v : List Char) (hv : ∀ ch ∈ v, notQuote ch = true)
    (rest : List Char) :
    (v ++ '\'' :: rest).takeWhile notQuote = v := by
  induction v with
  | nil => simp only [List.nil_append, List.takeWhile, notQuote_quote]
  | cons c cs ih =>
    have hc := hv c (List.mem_cons_self c cs)
    simp only [List.cons_append, List.takeWhile, hc]
    exact congrArg (fun l => c :: l) (ih (fun ch h => hv ch (List.mem_cons_of_mem c h)))

/-- Scanning for the closing quote drops exactly the quote-free prefix. -/
theorem dropWhile_quote (v : List Char) (hv : ∀ ch ∈ v, notQuote ch = true)
    (rest : List Char) :
    (v ++ '\'' :: rest).dropWhile notQuote = '\'' :: rest := by
  induction v with
  | nil => simp only [List.nil_append, List.dropWhile, notQuote_quote]
  | cons c cs ih =>
    have hc := hv c (List.mem_cons_self c cs)
    simp only [List.cons_append, List.dropWhile, hc]
    exact ih (fun ch h => hv ch (List.mem_cons_of_mem c h))

/-- An identifier scan keeps exactly the word-character prefix. -/
theorem takeWhile_word (w : List Char) (hw : ∀ ch ∈ w, isWordOrHyphenChar ch = true)
    (c0 : Char) (hc0 : isWordOrHyphenChar c0 = false) (rest : List Char) :
    (w ++ c0 :: rest).takeWhile isWordOrHyphenChar = w := by
  induction w with
  | nil => simp only [List.nil_append, List.takeWhile, hc0]
  | cons c cs ih =>
    have hc := hw c (List.mem_cons_self c cs)
    simp only [List.cons_append, List.takeWhile, hc]
    exact congrArg (fun l => c :: l) (ih (fun ch h => hw ch (List.mem_cons_of_mem c h)))

/-- An identifier scan drops exactly the word-character prefix. -/
theorem dropWhile_word (w : List Char) (hw : ∀ ch ∈ w, isWordOrHyphenChar ch = true)
    (c0 : Char) (hc0 : isWordOrHyphenChar c0 = false) (rest : List Char) :
    (w ++ c0 :: rest).dropWhile isWordOrHyphenChar = c0 :: rest := by
  induction w with
  | nil => simp only [List.nil_append, List.dropWhile, hc0]
  | cons c cs ih =>
    have hc := hw c (List.mem_cons_self c cs)
    simp only [List.cons_append, List.dropWhile, hc]
    exact ih (fun ch h => hw ch (List.mem_cons_of_mem c h))

/-- The lexer accepts the empty input. -/
theorem lex_nil : lexChars [] = .ok [] := by
  rw [lexChars.eq_def]

/-- The lexer skips a leading space. -/
theorem lex_space (xs : List Char) : lexChars (' ' :: xs) = lexChars xs := by
  rw [lexChars.eq_def]
  simp +decide

/-- The lexer turns `==` into the equality operator token. -/
theorem lex_eqOp (xs : List Char) :
    lexChars ('=' :: '=' :: xs) = consToken Token.eqOp (lexChars xs) := by
  rw [lexChars.eq_def]
  simp +decide

/-- The lexer turns `!=` into the inequality operator token. -/
theorem lex_neqOp (xs : List Char) :
    lexChars ('!' :: '=' :: xs) = consToken Token.neqOp (lexChars xs) := by
  rw [lexChars.eq_def]
  simp +decide

/-- The lexer turns `@>` into the contains operator token. -/
theorem lex_containsOp (xs : List Char) :
    lexChars ('@' :: '>' :: xs) = consToken Token.containsOp (lexChars xs) := by
  rw [lexChars.eq_def]
  simp +decide

/-- The lexer turns `&&` into the conjunction token. -/
theorem lex_andOp (xs : List Char) :
    lexChars ('&' :: '&' :: xs) = consToken Token.andOp (lexChars xs) := by
  rw [lexChars.eq_def]
  simp +decide

/-- The lexer turns `||` into the disjunction token. -/
theorem lex_orOp (xs : List Char) :
    lexChars ('|' :: '|' :: xs) = consToken Token.orOp (lexChars xs) := by
  rw [lexChars.eq_def]
  simp +decide

/-- The lexer turns `(` into the opening parenthesis token. -/
theorem lex_lparen (xs : List Char) :
    lexChars ('(' :: xs) = consToken Token.lparen (lexChars xs) := by
  rw [lexChars.eq_def]
  simp +decide

/-- The lexer turns `)` into the closing parenthesis token. -/
theorem lex_rparen (xs : List Char) :
    lexChars (')' :: xs) = consToken Token.rparen (lexChars xs) := by
  rw [lexChars.eq_def]
  simp +decide

/-- The lexer turns a maximal run of word characters (delimited by a
non-word character) into one identifier token. -/
theorem lex_word (wc : Char) (w : List Char) (c0 : Char) (rest : List Char)
    (hwc : isWordOrHyphenChar wc = true) (hw : ∀ ch ∈ w, isWordOrHyphenChar ch = true)
    (hc0 : isWordOrHyphenChar c0 = false) :
    lexChars (wc :: (w ++ c0 :: rest)) =
      consToken (Token.ident (String.mk (wc :: w))) (lexChars (c0 :: rest)) := by
  rw [lexChars.eq_def]
  simp [hwc, takeWhile_word w hw c0 hc0 rest, dropWhile_word w hw c0 hc0 rest]

/-- The lexer turns a quote-delimited run into one string literal
token. -/
theorem lex_strLit (v : String) (rest : List Char)
    (hv : ∀ ch ∈ v.data, notQuote ch = true) :
    lexChars ('\'' :: (v.data ++ '\'' :: rest)) = consToken (Token.str v) (lexChars rest) := by
  cases v with
  | mk vd =>
    simp only [String.data] at hv ⊢
    rw [lexChars.eq_def]
    simp +decide [takeWhile_quote vd hv rest, dropWhile_quote vd hv rest]

/-- The lexer turns `title` followed by a space into its identifier
token. -/
theorem lex_title (xs : List Char) :
    lexChars ('t' :: 'i' :: 't' :: 'l' :: 'e' :: ' ' :: xs) =
      consToken (Token.ident "title") (lexChars (' ' :: xs)) :=
  lex_word 't' ['i', 't', 'l', 'e'] ' ' xs (by decide) (by decide) (by decide)

/-- The lexer turns `folderTitle` followed by a space into its
identifier token. -/
theorem lex_folderTitle (xs : List Char) :
    lexChars ('f' :: 'o' :: 'l' :: 'd' :: 'e' :: 'r' :: 'T' :: 'i' :: 't' :: 'l' :: 'e' :: ' ' :: xs) =
      consToken (Token.ident "folderTitle") (lexChars (' ' :: xs)) :=
  lex_word 'f' ['o', 'l', 'd', 'e', 'r', 'T', 'i', 't', 'l', 'e'] ' ' xs
    (by decide) (by decide) (by decide)

/-- The lexer turns `tags` followed by a space into its identifier
token. -/
theorem lex_tags (xs : List Char) :
    lexChars ('t' :: 'a' :: 'g' :: 's' :: ' ' :: xs) =
      consToken (Token.ident "tags") (lexChars (' ' :: xs)) :=
  lex_word 't' ['a', 'g', 's'] ' ' xs (by decide) (by decide) (by decide)

/-- Lexing a rendered comparison produces its identifier, operator, and
string-literal tokens, and continues with the rest of the input. -/
theorem lexComp (c : ComparisonSrc) (rest : List Char)
    (hv : ∀ ch ∈ c.value.data, notQuote ch = true) :
    lexChars (c.render.data ++ rest) =
      consToken (Token.ident c.field.render)
        (consToken (opToken c.op) (consToken (Token.str c.value) (lexChars rest))) := by
  obtain ⟨f, o, v⟩ := c
  cases f <;> cases o <;>
    (simp only [ComparisonSrc.render, FieldName.render, CompOp.render, opToken, data_append,
       List.append_assoc,
       (show (" ").data = [' '] from rfl),
       (show ("==").data = ['=', '='] from rfl),
       (show ("!=").data = ['!', '='] from rfl),
       (show ("@>").data = ['@', '>'] from rfl),
       (show (" '").data = [' ', '\''] from rfl),
       (show ("'").data = ['\''] from rfl),
       (show ("title").data = ['t', 'i', 't', 'l', 'e'] from rfl),
       (show ("folderTitle").data = ['f', 'o', 'l', 'd', 'e', 'r', 'T', 'i', 't', 'l', 'e'] from rfl),
       (show ("tags").data = ['t', 'a', 'g', 's'] from rfl),
       List.cons_append, List.nil_append,
       lex_title, lex_folderTitle, lex_tags, lex_space, lex_eqOp, lex_neqOp, lex_containsOp];
     rw [lex_strLit v rest hv])

/-- A primary beginning with an identifier parses as a comparison. -/
theorem parsePrim_ident (u : Unit) (fuel : List Unit) (name : String) (rest : List Token) :
    parseExpr (u :: fuel) .primMode (.ident name :: rest) = parseComparison name rest := rfl

/-- A primary beginning with an identifier parses as its comparison
parse result (application form, for goals whose fuel is not yet in
cons form). -/
theorem parsePrim_ident_ok (u : Unit) (fuel : List Unit) (name : String) (rest : List Token)
    (e : Expr) (r : List Token) (h : parseComparison name rest = .ok (e, r)) :
    parseExpr (u :: fuel) .primMode (.ident name :: rest) = .ok (e, r) := by
  rw [parsePrim_ident]
  exact h

/-- A well-formed comparison token triple parses to its comparison
leaf. -/
theorem parseComparison_ok (f : FieldName) (o : CompOp) (v : String) (rest : List Token)
    (h : o = CompOp.contains → f = FieldName.tags) :
    parseComparison f.render (opToken o :: .str v :: rest) = .ok (.comparison f o v, rest) := by
  cases f <;> cases o <;> first
    | rfl
    | exact absurd (h rfl) (by decide)

/-- An `And` production with no following `&&` returns its primary
(input exhausted). -/
theorem parseAnd_stop_nil (u : Unit) (fuel : List Unit) (ts : List Token) (e : Expr)
    (h : parseExpr fuel .primMode ts = .ok (e, [])) :
    parseExpr (u :: fuel) .andMode ts = .ok (e, []) := by
  simp only [parseExpr, h]

/-- An `And` production stops in front of `||`. -/
theorem parseAnd_stop_or (u : Unit) (fuel : List Unit) (ts : List Token) (e : Expr)
    (r : List Token) (h : parseExpr fuel .primMode ts = .ok (e, .orOp :: r)) :
    parseExpr (u :: fuel) .andMode ts = .ok (e, .orOp :: r) := by
  simp only [parseExpr, h]

/-- An `And` production stops in front of `)`. -/
theorem parseAnd_stop_rparen (u : Unit) (fuel : List Unit) (ts : List Token) (e : Expr)
    (r : List Token) (h : parseExpr fuel .primMode ts = .ok (e, .rparen :: r)) :
    parseExpr (u :: fuel) .andMode ts = .ok (e, .rparen :: r) := by
  simp only [parseExpr, h]

/-- An `And` production joins a primary and the rest of an `&&` chain
into an `And` node. -/
theorem parseAnd_chain (u : Unit) (fuel : List Unit) (ts : List Token) (e1 e2 : Expr)
    (r1 r2 : List Token) (h1 : parseExpr fuel .primMode ts = .ok (e1, .andOp :: r1))
    (h2 : parseExpr fuel .andMode r1 = .ok (e2, r2)) :
    parseExpr (u :: fuel) .andMode ts = .ok (.and e1 e2, r2) := by
  simp only [parseExpr, h1, h2]

/-- An `Or` production with no following `||` returns its conjunct
(input exhausted). -/
theorem parseOr_stop_nil (u : Unit) (fuel : List Unit) (ts : List Token) (e : Expr)
    (h : parseExpr fuel .andMode ts = .ok (e, [])) :
    parseExpr (u :: fuel) .orMode ts = .ok (e, []) := by
  simp only [parseExpr, h]

/-- An `Or` production stops in front of `)`. -/
theorem parseOr_stop_rparen (u : Unit) (fuel : List Unit) (ts : List Token) (e : Expr)
    (r : List Token) (h : parseExpr fuel .andMode ts = .ok (e, .rparen :: r)) :
    parseExpr (u :: fuel) .orMode ts = .ok (e, .rparen :: r) := by
  simp only [parseExpr, h]

/-- An `Or` production joins a conjunct and the rest of a `||` chain
into an `Or` node. -/
theorem parseOr_chain (u : Unit) (fuel : List Unit) (ts : List Token) (e1 e2 : Expr)
    (r1 r2 : List Token) (h1 : parseExpr fuel .andMode ts = .ok (e1, .orOp :: r1))
    (h2 : parseExpr fuel .orMode r1 = .ok (e2, r2)) :
    parseExpr (u :: fuel) .orMode ts = .ok (.or e1 e2, r2) := by
  simp only [parseExpr, h1, h2]

/-- A parenthesized group parses to the inner expression. -/
theorem parsePrim_paren (u : Unit) (fuel : List Unit) (ts : List Token) (e : Expr)
    (r : List Token) (h : parseExpr fuel .orMode ts = .ok (e, .rparen :: r)) :
    parseExpr (u :: fuel) .primMode (.lparen :: ts) = .ok (e, r) := by
  simp only [parseExpr, h]

/-- A failing primary fails the enclosing `And` production. -/
theorem parseAnd_err (u : Unit) (fuel : List Unit) (ts : List Token) (er : QueryError)
    (h : parseExpr fuel .primMode ts = .error er) :
    parseExpr (u :: fuel) .andMode ts = .error er := by
  simp only [parseExpr, h]

/-- A failing conjunct fails the enclosing `Or` production. -/
theorem parseOr_err (u : Unit) (fuel : List Unit) (ts : List Token) (er : QueryError)
    (h : parseExpr fuel .andMode ts = .error er) :
    parseExpr (u :: fuel) .orMode ts = .error er := by
  simp only [parseExpr, h]

/-- A root parse that consumes all tokens is the parse result. -/
theorem parseTokens_ok (ts : List Token) (e : Expr)
    (h : parseExpr (fuelFor ts) .orMode ts = .ok (e, [])) :
    parseTokens ts = .ok e := by
  simp only [parseTokens, h]

/-- A failing root parse fails `parseTokens`. -/
theorem parseTokens_err (ts : List Token) (er : QueryError)
    (h : parseExpr (fuelFor ts) .orMode ts = .error er) :
    parseTokens ts = .error er := by
  simp only [parseTokens, h]

/-- Composing the lexer and the token parser runs. -/
theorem parse_of_lex (q : String) (ts : List Token) (h : lexChars q.data = .ok ts) :
    QueryEvaluator.parse q = parseTokens ts := by
  simp only [QueryEvaluator.parse, h]

/-- The token sequence of a single well-formed comparison parses to its
comparison leaf with nothing left over. -/
theorem parseTokens_comp (f : FieldName) (o : CompOp) (v : String)
    (h : o = CompOp.contains → f = FieldName.tags) :
    parseTokens [.ident f.render, opToken o, .str v] = .ok (.comparison f o v) := by
  apply parseTokens_ok
  apply parseOr_stop_nil
  apply parseAnd_stop_nil
  rw [parsePrim_ident]
  exact parseComparison_ok f o v [] h

/-- Lexing a rendered comparison alone produces exactly its three
tokens. -/
theorem lex_render (c : ComparisonSrc) (hv : ∀ ch ∈ c.value.data, notQuote ch = true) :
    lexChars c.render.data = .ok [.ident c.field.render, opToken c.op, .str c.value] := by
  have h2 := lexComp c [] hv
  rw [List.append_nil] at h2
  rw [h2, lex_nil]
  rfl

/-- Parsing a rendered well-formed comparison yields its comparison
leaf. -/
theorem parse_render (c : ComparisonSrc) (h : c.wf) :
    QueryEvaluator.parse c.render = .ok c.expr := by
  rw [parse_of_lex c.render _ (lex_render c h.2)]
  exact parseTokens_comp c.field c.op c.value h.1

/-- URL qualification changes only `url` and `folderUrl`, so evaluation
of any selector expression is unaffected by it. -/
theorem evaluate_fullyQualified (e : Expr) (domain : String) (d : Dashboard) :
    QueryEvaluator.evaluate e
      { d with url := domain ++ d.url, folderUrl := domain ++ d.folderUrl } =
      QueryEvaluator.evaluate e d := by
  induction e with
  | comparison f op v => cases f <;> cases op <;> rfl
  | and l r ihl ihr => simp only [QueryEvaluator.evaluate, ihl, ihr]
  | or l r ihl ihr => simp only [QueryEvaluator.evaluate, ihl, ihr]

/-- Filtering the URL-qualified listing by evaluation is the same as
qualifying the filtered raw listing: qualification commutes with the
selector filter. -/
theorem filter_fullyQualified (domain : String) (e : Expr) (ds : List Dashboard) :
    ((Client.fullyQualifiedDashboardURLs domain ds).filter fun d =>
        QueryEvaluator.evaluate e d == true) =
      Client.fullyQualifiedDashboardURLs domain
        (ds.filter fun d => QueryEvaluator.evaluate e d) := by
  induction ds with
  | nil => rfl
  | cons d ds ih =>
    simp only [Client.fullyQualifiedDashboardURLs, List.map_cons, List.filter_cons] at ih ⊢
    rw [evaluate_fullyQualified]
    cases h : QueryEvaluator.evaluate e d
    · simpa using ih
    · simpa using ih

/-- The tag fast path of the dispatcher: a single-word query goes to the
tag-filtered endpoint, whose response is URL-qualified and returned. -/
theorem listDashboards_tagPath (domain q : String) (fl : FetchLayer)
    (h : isSingleWord q = true) :
    Client.listDashboards domain q fl =
      (.ok (Client.fullyQualifiedDashboardURLs domain (fl.searchByTag q)),
        ["/api/search?type=dash-db&tag=" ++ q]) := by
  simp only [Client.listDashboards, h, if_true, Client.dashboardsByTag, ClientM.bind,
    Client.fetchSearchByTag, ClientM.pure, List.append_nil]

/-- A non-single-word query takes the parse-and-filter path. -/
theorem listDashboards_queryPath (domain q : String) (fl : FetchLayer)
    (h : isSingleWord q = false) :
    Client.listDashboards domain q fl = Client.dashboardsForQuery domain q fl := by
  simp only [Client.listDashboards, h, Bool.false_eq_true, if_false]

/-- A successful parse fetches the unfiltered listing once and filters
it by evaluation. -/
theorem dashboardsForQuery_parseOk (domain q : String) (e : Expr) (fl : FetchLayer)
    (h : QueryEvaluator.parse q = .ok e) :
    Client.dashboardsForQuery domain q fl =
      (.ok ((Client.fullyQualifiedDashboardURLs domain fl.searchAll).filter fun d =>
          QueryEvaluator.evaluate e d == true),
        ["/api/search?type=dash-db"]) := by
  simp only [Client.dashboardsForQuery, ClientM.bind, ClientM.ofExcept, h,
    Client.fetchSearchAll, ClientM.pure, List.nil_append, List.append_nil]

/-- A failed parse aborts `dashboardsForQuery` before any fetch: the
error is returned and the request trace is empty. -/
theorem dashboardsForQuery_parseErr (domain q : String) (er : QueryError) (fl : FetchLayer)
    (h : QueryEvaluator.parse q = .error er) :
    Client.dashboardsForQuery domain q fl = (.error er, []) := by
  simp only [Client.dashboardsForQuery, ClientM.bind, ClientM.ofExcept, h]

/-- Sample dashboard with no tags (scenario B of the spec). -/
def sampleDashboard1 : Dashboard :=
  { title := "My Dashboard", url := "/d/1", folderTitle := "X", folderUrl := "/f/x", tags := [] }

/-- Sample dashboard tagged `production` and `api`. -/
def sampleDashboard2 : Dashboard :=
  { title := "Other", url := "/d/2", folderTitle := "Y", folderUrl := "/f/y",
    tags := ["production", "api"] }

/-- Sample dashboard tagged `production` only. -/
def sampleDashboard3 : Dashboard :=
  { title := "Other2", url := "/d/3", folderTitle := "Z", folderUrl := "/f/z",
    tags := ["production"] }

/-- A concrete fetch layer used by the witnesses. -/
def sampleFetchLayer : FetchLayer where
  searchAll := [sampleDashboard1, sampleDashboard2, sampleDashboard3]
  searchByTag := fun tag =>
    if tag = "production" then [sampleDashboard2, sampleDashboard3] else []

/-- Lexing an arbitrary identifier-led comparison (the identifier need
not be a recognized field) produces its three tokens. -/
theorem lex_ident_comp (f : String) (o : CompOp) (v : String) (rest : List Char)
    (hne : f.data ≠ []) (hword : ∀ ch ∈ f.data, isWordOrHyphenChar ch = true)
    (hv : ∀ ch ∈ v.data, notQuote ch = true) :
    lexChars (f.data ++ (' ' :: (o.render.data ++ (' ' :: '\'' :: (v.data ++ ('\'' :: rest)))))) =
      consToken (.ident f) (consToken (opToken o) (consToken (.str v) (lexChars rest))) := by
  rcases hdata : f.data with _ | ⟨wc, w⟩
  · exact absurd hdata hne
  · have hwc : isWordOrHyphenChar wc = true :=
      hword wc (by rw [hdata]; exact List.mem_cons_self wc w)
    have hw : ∀ ch ∈ w, isWordOrHyphenChar ch = true := fun ch hch =>
      hword ch (by rw [hdata]; exact List.mem_cons_of_mem wc hch)
    rw [show (wc :: w) ++ (' ' :: (o.render.data ++ (' ' :: '\'' :: (v.data ++ ('\'' :: rest))))) =
        wc :: (w ++ (' ' :: (o.render.data ++ (' ' :: '\'' :: (v.data ++ ('\'' :: rest)))))) from rfl,
      lex_word wc w ' ' _ hwc hw (by decide)]
    have hmk : String.mk (wc :: w) = f := by rw [← hdata]
    rw [hmk]
    cases o <;>
      (simp only [CompOp.render, opToken,
        (show ("==").data = ['=', '='] from rfl),
        (show ("!=").data = ['!', '='] from rfl),
        (show ("@>").data = ['@', '>'] from rfl),
        List.cons_append, List.nil_append,
        lex_space, lex_eqOp, lex_neqOp, lex_containsOp];
       rw [lex_strLit v rest hv])

/-- Claim C7: for every dashboard whose tags collection is empty, every
`Contains` (`@>`) comparison evaluates to `false`, regardless of the
literal operand (and regardless of the field it is applied to). -/
theorem C7_empty_tags_contains_false (d : Dashboard) (h : d.tags = [])
    (f : FieldName) (v : String) :
    QueryEvaluator.evaluate (.comparison f CompOp.contains v) d = false := by
  cases f
  · rfl
  · rfl
  · simp [QueryEvaluator.evaluate, h]

/-- Witness for C7 at a concrete dashboard with empty tags. -/
theorem C7_empty_tags_contains_false_witness :
    sampleDashboard1.tags = [] ∧
      QueryEvaluator.evaluate (.comparison .tags CompOp.contains "production")
        sampleDashboard1 = false :=
  ⟨rfl, C7_empty_tags_contains_false sampleDashboard1 rfl .tags "production"⟩

/-- Claim C8: evaluation of the boolean combinators is commutative: for
all expressions and every dashboard, `And` and `Or` give the same result
with their children swapped. -/
theorem C8_evaluate_commutative (A B : Expr) (d : Dashboard) :
    QueryEvaluator.evaluate (.and A B) d = QueryEvaluator.evaluate (.and B A) d ∧
      QueryEvaluator.evaluate (.or A B) d = QueryEvaluator.evaluate (.or B A) d := by
  constructor
  · simp only [QueryEvaluator.evaluate]
    exact Bool.and_comm _ _
  · simp only [QueryEvaluator.evaluate]
    exact Bool.or_comm _ _

/-- Claim C2: a query matching the bare-word pattern takes the
server-side tag path: the result is the URL-qualified tag-filtered
listing and the only request is the tag-search endpoint. The conclusion
does not depend on the parser in any way — it holds whether or not the
query would parse — so no client-side parsing or evaluation takes
place. -/
theorem C2_bare_word_takes_tag_path (domain query : String) (fl : FetchLayer)
    (h : isSingleWord query = true) :
    Client.listDashboards domain query fl =
      (.ok (Client.fullyQualifiedDashboardURLs domain (fl.searchByTag query)),
        ["/api/search?type=dash-db&tag=" ++ query]) :=
  listDashboards_tagPath domain query fl h

/-- Witness for C2 at the bare word `production`. -/
theorem C2_bare_word_takes_tag_path_witness :
    isSingleWord "production" = true ∧
      Client.listDashboards "https://grafana.example.com" "production" sampleFetchLayer =
        (.ok (Client.fullyQualifiedDashboardURLs "https://grafana.example.com"
            (sampleFetchLayer.searchByTag "production")),
          ["/api/search?type=dash-db&tag=production"]) :=
  ⟨by decide, C2_bare_word_takes_tag_path _ _ _ (by decide)⟩

/-- Claim C3: a non-bare-word selector that fails to parse makes
`listDashboards` fail with that exact error: no dashboard list of any
kind is returned, and no request is issued (so nothing is evaluated). -/
theorem C3_parse_error_propagates (domain query : String) (fl : FetchLayer)
    (er : QueryError) (h1 : isSingleWord query = false)
    (h2 : QueryEvaluator.parse query = .error er) :
    Client.listDashboards domain query fl = (.error er, []) := by
  rw [listDashboards_queryPath domain query fl h1]
  exact dashboardsForQuery_parseErr domain query er fl h2

/-- Claim C10: the query is parsed before the listing fetch is issued,
so a parse failure aborts `dashboardsForQuery` with an empty request
trace (no network request), while a successful parse issues exactly the
one listing request. -/
theorem C10_parse_precedes_fetch (domain query : String) (fl : FetchLayer) :
    (∀ er, QueryEvaluator.parse query = .error er →
      Client.dashboardsForQuery domain query fl = (.error er, [])) ∧
    (∀ e, QueryEvaluator.parse query = .ok e →
      (Client.dashboardsForQuery domain query fl).snd = ["/api/search?type=dash-db"]) := by
  constructor
  · intro er h
    exact dashboardsForQuery_parseErr domain query er fl h
  · intro e h
    rw [dashboardsForQuery_parseOk domain query e fl h]

/-- Scenario D of the spec: `tags @> ` (missing literal) is a parse
error, not an empty result. -/
theorem parse_scenarioD :
    QueryEvaluator.parse "tags @> " = .error (.parseError "expected string literal") := by
  have hlex : lexChars ("tags @> ").data = .ok [.ident "tags", Token.containsOp] := by
    show lexChars ('t' :: 'a' :: 'g' :: 's' :: ' ' :: '@' :: '>' :: ' ' :: []) = _
    rw [lex_tags, lex_space, lex_containsOp, lex_space, lex_nil]
    rfl
  rw [parse_of_lex _ _ hlex]
  apply parseTokens_err
  apply parseOr_err
  apply parseAnd_err
  rw [parsePrim_ident]
  rfl

/-- Witness for C3 at the malformed selector of scenario D. -/
theorem C3_parse_error_propagates_witness :
    isSingleWord "tags @> " = false ∧
      QueryEvaluator.parse "tags @> " = .error (.parseError "expected string literal") ∧
      Client.listDashboards "https://grafana.example.com" "tags @> " sampleFetchLayer =
        (.error (.parseError "expected string literal"), []) :=
  ⟨by decide, parse_scenarioD,
    C3_parse_error_propagates _ _ _ _ (by decide) parse_scenarioD⟩

/-- Witness for C10: the malformed selector of scenario D yields the
error with an empty request trace, and a parsing selector issues the one
listing request. -/
theorem C10_parse_precedes_fetch_witness :
    Client.dashboardsForQuery "https://grafana.example.com" "tags @> " sampleFetchLayer =
        (.error (.parseError "expected string literal"), []) ∧
      (Client.dashboardsForQuery "https://grafana.example.com" "title == 'Foo'"
          sampleFetchLayer).snd = ["/api/search?type=dash-db"] :=
  ⟨(C10_parse_precedes_fetch "https://grafana.example.com" "tags @> " sampleFetchLayer).1
      _ parse_scenarioD,
    (C10_parse_precedes_fetch "https://grafana.example.com" "title == 'Foo'"
        sampleFetchLayer).2
      _ (parse_render ⟨FieldName.title, CompOp.equals, "Foo"⟩ (by decide))⟩

/-- Claim C1: a query that is not a bare word and parses successfully
fetches the complete listing once and returns exactly the subset of it
on which the parsed expression evaluates to `true`, in fetch order (the
kept records carrying the URL qualification of C9). -/
theorem C1_query_path_filters_by_evaluation (domain query : String) (fl : FetchLayer)
    (e : Expr) (h1 : isSingleWord query = false)
    (h2 : QueryEvaluator.parse query = .ok e) :
    Client.listDashboards domain query fl =
      (.ok (Client.fullyQualifiedDashboardURLs domain
          (fl.searchAll.filter fun d => QueryEvaluator.evaluate e d)),
        ["/api/search?type=dash-db"]) := by
  rw [listDashboards_queryPath domain query fl h1,
    dashboardsForQuery_parseOk domain query e fl h2, filter_fullyQualified]

/-- Witness for C1 at a concrete equality selector and fetch layer. -/
theorem C1_query_path_filters_by_evaluation_witness :
    isSingleWord "title == 'My Dashboard'" = false ∧
      QueryEvaluator.parse "title == 'My Dashboard'" =
        .ok (.comparison .title CompOp.equals "My Dashboard") ∧
      Client.listDashboards "https://grafana.example.com" "title == 'My Dashboard'"
          sampleFetchLayer =
        (.ok (Client.fullyQualifiedDashboardURLs "https://grafana.example.com"
            (sampleFetchLayer.searchAll.filter fun d =>
              QueryEvaluator.evaluate (.comparison .title CompOp.equals "My Dashboard") d)),
          ["/api/search?type=dash-db"]) := by
  refine ⟨by decide, ?_, ?_⟩
  · exact parse_render ⟨FieldName.title, CompOp.equals, "My Dashboard"⟩ (by decide)
  · exact C1_query_path_filters_by_evaluation _ _ _ _ (by decide)
      (parse_render ⟨FieldName.title, CompOp.equals, "My Dashboard"⟩ (by decide))

deriving instance DecidableEq for Except

/-- Counterexample to C4 as stated: for the bare tag `production`, the
returned list is not the tag-filtered listing response itself — its
elements have domain-qualified `url`/`folderUrl` fields, so they are not
unmodified. -/
theorem C4_counterexample_urls_are_modified :
    (Client.listDashboards "https://grafana.example.com" "production" sampleFetchLayer).fst ≠
      Except.ok (sampleFetchLayer.searchByTag "production") := by decide

/-- Claim C4 (amended): for every bare-word tag, the dispatcher returns
the tag-filtered listing response with no element added, dropped, or
reordered — it adds no filtering of its own — but each element's `url`
and `folderUrl` are prefixed with the domain (all other fields are
unchanged), per C9. -/
theorem C4_amended_tag_path_adds_no_filtering (domain tag : String) (fl : FetchLayer)
    (h : isSingleWord tag = true) :
    (Client.listDashboards domain tag fl).fst =
      .ok ((fl.searchByTag tag).map fun d =>
        { d with url := domain ++ d.url, folderUrl := domain ++ d.folderUrl }) := by
  rw [listDashboards_tagPath domain tag fl h]
  rfl

/-- Witness for the amended C4 at the bare tag `production`. -/
theorem C4_amended_tag_path_adds_no_filtering_witness :
    isSingleWord "production" = true ∧
      (Client.listDashboards "https://grafana.example.com" "production" sampleFetchLayer).fst =
        .ok ((sampleFetchLayer.searchByTag "production").map fun d =>
          { d with url := "https://grafana.example.com" ++ d.url,
                   folderUrl := "https://grafana.example.com" ++ d.folderUrl }) :=
  ⟨by decide, C4_amended_tag_path_adds_no_filtering _ _ _ (by decide)⟩

/-- Every member of a URL-qualified listing comes from a member of the
raw listing, with only `url`/`folderUrl` rewritten. -/
theorem mem_fullyQualified (domain : String) (ds : List Dashboard) (d : Dashboard)
    (hd : d ∈ Client.fullyQualifiedDashboardURLs domain ds) :
    ∃ d0 ∈ ds, d.url = domain ++ d0.url ∧ d.folderUrl = domain ++ d0.folderUrl ∧
      d.title = d0.title ∧ d.folderTitle = d0.folderTitle ∧ d.tags = d0.tags := by
  simp only [Client.fullyQualifiedDashboardURLs, List.mem_map] at hd
  obtain ⟨d0, hd0, heq⟩ := hd
  subst heq
  exact ⟨d0, hd0, rfl, rfl, rfl, rfl, rfl⟩

/-- Claim C9: on both dispatch paths, every returned dashboard is a
fetched record whose `url` and `folderUrl` are the domain concatenated
with the fetched values, with `title`, `folderTitle`, and `tags`
unchanged. -/
theorem C9_both_paths_qualify_urls (domain : String) (fl : FetchLayer) :
    (∀ tag l, (Client.dashboardsByTag domain tag fl).fst = .ok l →
      ∀ d ∈ l, ∃ d0 ∈ fl.searchByTag tag,
        d.url = domain ++ d0.url ∧ d.folderUrl = domain ++ d0.folderUrl ∧
        d.title = d0.title ∧ d.folderTitle = d0.folderTitle ∧ d.tags = d0.tags) ∧
    (∀ query l, (Client.dashboardsForQuery domain query fl).fst = .ok l →
      ∀ d ∈ l, ∃ d0 ∈ fl.searchAll,
        d.url = domain ++ d0.url ∧ d.folderUrl = domain ++ d0.folderUrl ∧
        d.title = d0.title ∧ d.folderTitle = d0.folderTitle ∧ d.tags = d0.tags) := by
  constructor
  · intro tag l hl d hd
    have hrun : (Client.dashboardsByTag domain tag fl).fst =
        .ok (Client.fullyQualifiedDashboardURLs domain (fl.searchByTag tag)) := rfl
    rw [hrun] at hl
    obtain rfl := (Except.ok.inj hl).symm
    exact mem_fullyQualified domain _ d hd
  · intro query l hl d hd
    cases hq : QueryEvaluator.parse query with
    | error er =>
      rw [dashboardsForQuery_parseErr domain query er fl hq] at hl
      simp at hl
    | ok e =>
      rw [dashboardsForQuery_parseOk domain query e fl hq] at hl
      obtain rfl := (Except.ok.inj hl).symm
      exact mem_fullyQualified domain _ d (List.mem_of_mem_filter hd)

/-- The URL-qualified image of `sampleDashboard2`. -/
def sampleQualified2 : Dashboard :=
  { title := "Other", url := "https://grafana.example.com/d/2", folderTitle := "Y",
    folderUrl := "https://grafana.example.com/f/y", tags := ["production", "api"] }

/-- The URL-qualified image of `sampleDashboard1`. -/
def sampleQualified1 : Dashboard :=
  { title := "My Dashboard", url := "https://grafana.example.com/d/1", folderTitle := "X",
    folderUrl := "https://grafana.example.com/f/x", tags := [] }

/-- Witness for C9: one concrete returned dashboard on each path traces
back to a fetched record with qualified URLs and untouched data
fields. -/
theorem C9_both_paths_qualify_urls_witness :
    (∃ d0 ∈ sampleFetchLayer.searchByTag "production",
      sampleQualified2.url = "https://grafana.example.com" ++ d0.url ∧
      sampleQualified2.folderUrl = "https://grafana.example.com" ++ d0.folderUrl ∧
      sampleQualified2.title = d0.title ∧ sampleQualified2.folderTitle = d0.folderTitle ∧
      sampleQualified2.tags = d0.tags) ∧
    (∃ d0 ∈ sampleFetchLayer.searchAll,
      sampleQualified1.url = "https://grafana.example.com" ++ d0.url ∧
      sampleQualified1.folderUrl = "https://grafana.example.com" ++ d0.folderUrl ∧
      sampleQualified1.title = d0.title ∧ sampleQualified1.folderTitle = d0.folderTitle ∧
      sampleQualified1.tags = d0.tags) := by
  constructor
  · exact (C9_both_paths_qualify_urls "https://grafana.example.com" sampleFetchLayer).1
      "production" _ rfl sampleQualified2 (by decide)
  · exact (C9_both_paths_qualify_urls "https://grafana.example.com" sampleFetchLayer).2
      "title == 'My Dashboard'" _
      (by rw [dashboardsForQuery_parseOk "https://grafana.example.com" "title == 'My Dashboard'"
        (.comparison .title CompOp.equals "My Dashboard") sampleFetchLayer
        (parse_render ⟨FieldName.title, CompOp.equals, "My Dashboard"⟩ (by decide))])
      sampleQualified1 (by decide)

/-- Claim C5: a comparison whose field name is any word other than
`title`, `folderTitle`, `tags` fails to parse with a `ParseError`
naming the unknown field, and `@>` applied to a recognized field other
than `tags` fails with a `ParseError` as well; in neither case does the
parser produce a tree (so nothing can silently evaluate to `false`). -/
theorem C5_parser_rejects_unknown_field_and_contains_mismatch :
    (∀ (f : String) (o : CompOp) (v : String),
        f.data ≠ [] → (∀ ch ∈ f.data, isWordOrHyphenChar ch = true) →
        f ≠ "title" → f ≠ "folderTitle" → f ≠ "tags" →
        (∀ ch ∈ v.data, notQuote ch = true) →
        QueryEvaluator.parse (f ++ " " ++ o.render ++ " '" ++ v ++ "'") =
          .error (.parseError ("unknown field: " ++ f))) ∧
    (∀ (fn : FieldName) (v : String), fn ≠ FieldName.tags →
        (∀ ch ∈ v.data, notQuote ch = true) →
        QueryEvaluator.parse (fn.render ++ " @> '" ++ v ++ "'") =
          .error (.parseError "operator @> is only valid on the tags field")) := by
  constructor
  · intro f o v hne hword h1 h2 h3 hv
    have hdata : ((f ++ " " ++ o.render ++ " '" ++ v ++ "'")).data =
        f.data ++ (' ' :: (o.render.data ++ (' ' :: '\'' :: (v.data ++ ('\'' :: []))))) := by
      simp only [data_append, List.append_assoc,
        (show (" ").data = [' '] from rfl),
        (show (" '").data = [' ', '\''] from rfl),
        (show ("'").data = ['\''] from rfl),
        List.cons_append, List.nil_append]
    have hlex : lexChars ((f ++ " " ++ o.render ++ " '" ++ v ++ "'")).data =
        .ok [.ident f, opToken o, .str v] := by
      rw [hdata, lex_ident_comp f o v [] hne hword hv, lex_nil]
      rfl
    rw [parse_of_lex _ _ hlex]
    apply parseTokens_err
    apply parseOr_err
    apply parseAnd_err
    rw [parsePrim_ident]
    have hfield : fieldOfName f = none := by
      simp only [fieldOfName, if_neg h1, if_neg h2, if_neg h3]
    simp only [parseComparison, hfield]
  · intro fn v hfn hv
    cases fn with
    | tags => exact absurd rfl hfn
    | title =>
      have hlex : lexChars ((FieldName.title.render ++ " @> '" ++ v ++ "'")).data =
          .ok [.ident "title", Token.containsOp, .str v] :=
        lex_render ⟨FieldName.title, CompOp.contains, v⟩ hv
      rw [parse_of_lex _ _ hlex]
      apply parseTokens_err
      apply parseOr_err
      apply parseAnd_err
      rw [parsePrim_ident]
      rfl
    | folderTitle =>
      have hlex : lexChars ((FieldName.folderTitle.render ++ " @> '" ++ v ++ "'")).data =
          .ok [.ident "folderTitle", Token.containsOp, .str v] :=
        lex_render ⟨FieldName.folderTitle, CompOp.contains, v⟩ hv
      rw [parse_of_lex _ _ hlex]
      apply parseTokens_err
      apply parseOr_err
      apply parseAnd_err
      rw [parsePrim_ident]
      rfl

/-- Witness for C5: scenario F's `price @> 'x'` (unknown field) and the
operator/field mismatch `title @> 'x'`. -/
theorem C5_parser_rejects_witness :
    QueryEvaluator.parse "price @> 'x'" = .error (.parseError "unknown field: price") ∧
      QueryEvaluator.parse "title @> 'x'" =
        .error (.parseError "operator @> is only valid on the tags field") :=
  ⟨C5_parser_rejects_unknown_field_and_contains_mismatch.1 "price" CompOp.contains "x"
      (by decide) (by decide) (by decide) (by decide) (by decide) (by decide),
    C5_parser_rejects_unknown_field_and_contains_mismatch.2 FieldName.title "x"
      (by decide) (by decide)⟩

/-- Claim C6: in an unparenthesized selector mixing the combinators,
`&&` binds tighter than `||`: for all comparisons `a`, `b`, `c`,
parsing `a || b && c` yields `Or(a, And(b, c))`, and explicit
parentheses override the grouping: `(a || b) && c` yields
`And(Or(a, b), c)`. -/
theorem C6_and_binds_tighter_than_or (a b c : ComparisonSrc)
    (ha : a.wf) (hb : b.wf) (hc : c.wf) :
    QueryEvaluator.parse (a.render ++ " || " ++ b.render ++ " && " ++ c.render) =
      .ok (.or a.expr (.and b.expr c.expr)) ∧
    QueryEvaluator.parse ("(" ++ a.render ++ " || " ++ b.render ++ ") && " ++ c.render) =
      .ok (.and (.or a.expr b.expr) c.expr) := by
  have hcl : lexChars c.render.data =
      .ok [.ident c.field.render, opToken c.op, .str c.value] := lex_render c hc.2
  constructor
  · have hbl : lexChars (b.render.data ++ (' ' :: '&' :: '&' :: ' ' :: c.render.data)) =
        .ok [.ident b.field.render, opToken b.op, .str b.value, .andOp,
          .ident c.field.render, opToken c.op, .str c.value] := by
      rw [lexComp b _ hb.2, lex_space, lex_andOp, lex_space, hcl]
      rfl
    have hdata : ((a.render ++ " || " ++ b.render ++ " && " ++ c.render)).data =
        a.render.data ++ (' ' :: '|' :: '|' :: ' ' ::
          (b.render.data ++ (' ' :: '&' :: '&' :: ' ' :: c.render.data))) := by
      simp only [data_append, List.append_assoc,
        (show (" || ").data = [' ', '|', '|', ' '] from rfl),
        (show (" && ").data = [' ', '&', '&', ' '] from rfl),
        List.cons_append, List.nil_append]
    have hal : lexChars ((a.render ++ " || " ++ b.render ++ " && " ++ c.render)).data =
        .ok [.ident a.field.render, opToken a.op, .str a.value, .orOp,
          .ident b.field.render, opToken b.op, .str b.value, .andOp,
          .ident c.field.render, opToken c.op, .str c.value] := by
      rw [hdata, lexComp a _ ha.2, lex_space, lex_orOp, lex_space, hbl]
      rfl
    rw [parse_of_lex _ _ hal]
    apply parseTokens_ok
    apply parseOr_chain
    · apply parseAnd_stop_or
      apply parsePrim_ident_ok
      exact parseComparison_ok a.field a.op a.value _ ha.1
    · apply parseOr_stop_nil
      apply parseAnd_chain
      · apply parsePrim_ident_ok
        exact parseComparison_ok b.field b.op b.value _ hb.1
      · apply parseAnd_stop_nil
        apply parsePrim_ident_ok
        exact parseComparison_ok c.field c.op c.value _ hc.1
  · have hbl : lexChars (b.render.data ++ (')' :: ' ' :: '&' :: '&' :: ' ' :: c.render.data)) =
        .ok [.ident b.field.render, opToken b.op, .str b.value, .rparen, .andOp,
          .ident c.field.render, opToken c.op, .str c.value] := by
      rw [lexComp b _ hb.2, lex_rparen, lex_space, lex_andOp, lex_space, hcl]
      rfl
    have hdata : (("(" ++ a.render ++ " || " ++ b.render ++ ") && " ++ c.render)).data =
        '(' :: (a.render.data ++ (' ' :: '|' :: '|' :: ' ' ::
          (b.render.data ++ (')' :: ' ' :: '&' :: '&' :: ' ' :: c.render.data)))) := by
      simp only [data_append, List.append_assoc,
        (show ("(").data = ['('] from rfl),
        (show (" || ").data = [' ', '|', '|', ' '] from rfl),
        (show (") && ").data = [')', ' ', '&', '&', ' '] from rfl),
        List.cons_append, List.nil_append]
    have hal : lexChars (("(" ++ a.render ++ " || " ++ b.render ++ ") && " ++ c.render)).data =
        .ok [.lparen, .ident a.field.render, opToken a.op, .str a.value, .orOp,
          .ident b.field.render, opToken b.op, .str b.value, .rparen, .andOp,
          .ident c.field.render, opToken c.op, .str c.value] := by
      rw [hdata, lex_lparen, lexComp a _ ha.2, lex_space, lex_orOp, lex_space, hbl]
      rfl
    rw [parse_of_lex _ _ hal]
    apply parseTokens_ok
    apply parseOr_stop_nil
    apply parseAnd_chain
    · apply parsePrim_paren
      apply parseOr_chain
      · apply parseAnd_stop_or
        apply parsePrim_ident_ok
        exact parseComparison_ok a.field a.op a.value _ ha.1
      · apply parseOr_stop_rparen
        apply parseAnd_stop_rparen
        apply parsePrim_ident_ok
        exact parseComparison_ok b.field b.op b.value _ hb.1
    · apply parseAnd_stop_nil
      apply parsePrim_ident_ok
      exact parseComparison_ok c.field c.op c.value _ hc.1

/-- Witness for C6 at the spec's scenario-B comparisons. -/
theorem C6_and_binds_tighter_than_or_witness :
    QueryEvaluator.parse "tags @> 'production' || tags @> 'api' && title == 'My Dashboard'" =
      .ok (.or (.comparison .tags CompOp.contains "production")
        (.and (.comparison .tags CompOp.contains "api")
          (.comparison .title CompOp.equals "My Dashboard"))) ∧
    QueryEvaluator.parse "(tags @> 'production' || tags @> 'api') && title == 'My Dashboard'" =
      .ok (.and (.or (.comparison .tags CompOp.contains "production")
          (.comparison .tags CompOp.contains "api"))
        (.comparison .title CompOp.equals "My Dashboard")) :=
  C6_and_binds_tighter_than_or
    ⟨FieldName.tags, CompOp.contains, "production"⟩
    ⟨FieldName.tags, CompOp.contains, "api"⟩
    ⟨FieldName.title, CompOp.equals, "My Dashboard"⟩
    (by decide) (by decide) (by decide)
